import Mathlib

/-!
Verification development for the "Bounded-Memory Aggregating Converter" of the
data-engineering assessment notebook (`assessment.ipynb`, cell 4).

The conversion loop walks `./raw_data` with `os.walk`, skips every directory that
still has subdirectories (`if dirs: continue`), and for each leaf directory opens
`processed_data/<basename>.json.gz` with `gzip.open(..., "ab")`.  For every file of
the leaf it dispatches on `os.path.splitext`: `.json` goes through
`pd.read_json(path, lines=True, chunksize=1000)`, `.csv` through
`pd.read_csv(path, chunksize=1000)`; every chunk is serialized with
`DataFrame.to_json(buffer, orient="records", lines=True)` and the buffer's bytes are
appended to the open gzip stream.

The embedding below models the filesystem as an explicit directory tree, the pandas
readers at the record level (chunk grouping, per-chunk DataFrame column unification
with null padding, parse failure as a per-chunk decode error), the pandas line
writer (records joined by a newline, with no trailing newline - the behaviour of
`pandas.io.json`: `convert_to_line_delimits` strips the surrounding brackets of the
`records` array and turns the separating commas into newlines, adding nothing at the
end), and the output directory as an association list of artifact name to the
decompressed byte content, built by replaying open/write/close events.
-/

set_option autoImplicit false

/-- A scalar JSON value as it appears in one cell of a decoded record.  (The
notebook's data is flat: CSV cells and JSON-line fields are scalars; `null` also
stands for pandas `NaN`/`None`, which `to_json` writes back as `null`.) -/
inductive JsonVal where
  | str (s : String)
  | num (n : Int)
  | bool (b : Bool)
  | null
deriving DecidableEq, Repr

/-- A decoded record: an ordered flat mapping of field name to scalar value,
exactly one per logical row of a source file. -/
abbrev Record := List (String × JsonVal)

/-- One physical line of a `.json` source file: either a well-formed flat JSON
object or a malformed line (one that `pd.read_json` fails to parse). -/
inductive JsonLine where
  | obj (r : Record)
  | malformed
deriving DecidableEq, Repr

/-- The decoding error that aborts a run: it identifies the source file being
processed (the file named by the notebook's `Processing file {f}` progress print at
the moment the reader raises) and the 0-based index of the chunk whose parse
failed. -/
structure DecodeError where
  file : String
  chunk : Nat
deriving DecidableEq, Repr

/-- Content of a source file.  `.csv` content is delimited text, pre-lexed into a
header row of column names and data rows of cells; `.json` content is a list of
physical lines; `binary` is content in neither of the two recognized shapes (a
reader handed such a file raises a parse error on its first chunk). -/
inductive FileContent where
  | csv (header : List String) (rows : List (List JsonVal))
  | jsonl (lines : List JsonLine)
  | binary
deriving DecidableEq, Repr

/-- A source file: its basename (the `f` of the notebook's file loop) and its
content. -/
structure RawFile where
  name : String
  content : FileContent
deriving DecidableEq, Repr

/-- A directory tree rooted at one directory: its basename, its subdirectories and
its files, both in listing order (the order `os.walk` reports them in). -/
inductive DirTree where
  | mk (name : String) (subdirs : List DirTree) (files : List RawFile)

/-- Extension of a basename, as computed by `os.path.splitext`: the suffix starting
at the last dot, except that a basename consisting of leading dots only up to that
dot has no extension (e.g. `.bashrc` has extension `""`). -/
def lastDotIdx : List Char → Option Nat
  | [] => none
  | c :: cs =>
    match lastDotIdx cs with
    | some i => some (i + 1)
    | none => if c = '.' then some 0 else none

/-- `os.path.splitext(name)[1]` for a plain basename. -/
def splitextExt (name : String) : String :=
  match lastDotIdx name.toList with
  | none => ""
  | some i =>
    if (name.toList.take i).any (fun c => c ≠ '.') then String.mk (name.toList.drop i)
    else ""

/-- Worker for `chunksOf`, structurally recursive on a fuel argument that the
caller instantiates with the list's length (each step consumes at least one
element, so the fuel never runs out). -/
def chunksOfAux {α : Type} (n : Nat) : Nat → List α → List (List α)
  | _, [] => []
  | 0, x :: xs => [x :: xs]
  | fuel + 1, x :: xs => (x :: xs.take (n - 1)) :: chunksOfAux n fuel (xs.drop (n - 1))

/-- Split a list into consecutive chunks of `n` elements (the last chunk may be
shorter), the grouping done by the `chunksize=n` option of `pd.read_json` /
`pd.read_csv`.  For `n = 0` the chunks have one element; the readers only accept
positive chunk sizes. -/
def chunksOf {α : Type} (n : Nat) (l : List α) : List (List α) :=
  chunksOfAux n l.length l

/-- Append to `acc` the keys of `ks` not already present, keeping first-appearance
order (how pandas collects the columns of a DataFrame built from a list of
dicts). -/
def insertKeys (acc : List String) (ks : List String) : List String :=
  ks.foldl (fun a k => if k ∈ a then a else a ++ [k]) acc

/-- The unified column list of a chunk of records: all keys in order of first
appearance. -/
def unionKeys (recs : List Record) : List String :=
  recs.foldl (fun a r => insertKeys a (r.map Prod.fst)) []

/-- DataFrame round trip of one chunk of JSON-line records: building the DataFrame
unifies the chunk's keys into one column list (missing fields become `NaN`), and
`to_json(orient="records")` then emits every column for every row, `NaN` as
`null`.  Each output record therefore carries the chunk's unified key list. -/
def frameRecords (recs : List Record) : List Record :=
  let cols := unionKeys recs
  recs.map (fun r => cols.map (fun c => (c, (r.lookup c).getD JsonVal.null)))

/-- The record of a well-formed JSON line, `none` for a malformed one. -/
def jsonLineRecord : JsonLine → Option Record
  | .obj r => some r
  | .malformed => none

/-- Decode one chunk of `.json` lines as `pd.read_json(lines=True)` does: the chunk
parses as a unit - any malformed line fails the whole chunk - and the resulting
records go through the DataFrame (column unification, null padding). -/
def decodeJsonChunk (chunk : List JsonLine) : Option (List Record) :=
  (chunk.mapM jsonLineRecord).map frameRecords

/-- Decode one `.csv` data row against the header, as the `pd.read_csv` tokenizer
does: a row with more cells than the header has columns is a tokenizer error; a
short row is padded with `NaN` (written back as `null`); otherwise the record pairs
the header names with the cells, in header order. -/
def decodeCsvRow (header : List String) (row : List JsonVal) : Option Record :=
  if header.length < row.length then none
  else some (header.zip (row ++ List.replicate (header.length - row.length) JsonVal.null))

/-- Decode one chunk of `.csv` rows: any bad row fails the chunk. -/
def decodeCsvChunk (header : List String) (rows : List (List JsonVal)) : Option (List Record) :=
  rows.mapM (decodeCsvRow header)

/-- JSON string escaping used by the serializer (quote, backslash, newline). -/
def jsonEscapeChar (c : Char) : String :=
  if c = '"' then "\\\""
  else if c = '\\' then "\\\\"
  else if c = '\n' then "\\n"
  else String.singleton c

/-- Escape a string for inclusion in a JSON string literal. -/
def jsonEscape (s : String) : String :=
  String.join (s.toList.map jsonEscapeChar)

/-- Serialize one scalar value as JSON text. -/
def serializeVal : JsonVal → String
  | .str s => "\"" ++ jsonEscape s ++ "\""
  | .num n => toString n
  | .bool b => if b then "true" else "false"
  | .null => "null"

/-- Serialize one record as a flat JSON object, fields in record order. -/
def serializeRecord (r : Record) : String :=
  "\x7b" ++ String.intercalate ","
      (r.map (fun kv => "\"" ++ jsonEscape kv.1 ++ "\":" ++ serializeVal kv.2)) ++ "\x7d"

/-- The byte payload `DataFrame.to_json(orient="records", lines=True)` produces for
one chunk: the records' JSON objects joined by a newline, with NO trailing newline
(`pandas.io.json`'s `convert_to_line_delimits` rewrites the separating commas of the
`records` array into newlines and appends nothing). -/
def chunkPayload (recs : List Record) : String :=
  String.intercalate "\n" (recs.map serializeRecord)

/-- The newline-delimited JSON serialization of a record sequence as the spec
describes the artifact: one record object per line. -/
def ndjsonSerialization (recs : List Record) : String :=
  String.join (recs.map (fun r => serializeRecord r ++ "\n"))

/-- The chunk stream `pd.read_json(path, lines=True, chunksize=n)` yields for a
`.json` file: the file's lines grouped `n` at a time, each group decoded as one
chunk.  A file whose content is not line-delimited JSON raises on its first
chunk. -/
def jsonFileChunks (n : Nat) : FileContent → List (Option (List Record))
  | .jsonl lines => (chunksOf n lines).map decodeJsonChunk
  | _ => [none]

/-- The chunk stream `pd.read_csv(path, chunksize=n)` yields for a `.csv` file: the
header is read once, then the data rows grouped `n` at a time.  A file whose
content is not delimited text raises on its first chunk. -/
def csvFileChunks (n : Nat) : FileContent → List (Option (List Record))
  | .csv header rows => (chunksOf n rows).map (decodeCsvChunk header)
  | _ => [none]

/-- Extension dispatch of the conversion loop: `.json` and `.csv` files produce
their chunk streams, any other extension is skipped - no chunks, no error. -/
def dispatchChunks (n : Nat) (f : RawFile) : List (Option (List Record)) :=
  if splitextExt f.name = ".json" then jsonFileChunks n f.content
  else if splitextExt f.name = ".csv" then csvFileChunks n f.content
  else []

/-- An output-filesystem event of the run: `gzip.open(artifact, "ab")` (which
creates the artifact when absent), one chunk's bytes written through the open
stream, or the close performed by leaving the `with` block (also on the exception
path). -/
inductive FsEv where
  | openArtifact (artifact : String)
  | writeChunk (artifact : String) (payload : String)
  | closeArtifact (artifact : String)
deriving DecidableEq, Repr

/-- Walk a file's chunk stream, writing each decoded chunk's payload to the
subject's artifact.  The reader parses a chunk only when the loop asks for it, so
the chunks before the first bad one are already written when the bad chunk raises;
the bad chunk itself writes nothing and the raised error carries the file's name
and the bad chunk's index (counting from `i`). -/
def emitChunksAux (a fname : String) (i : Nat) :
    List (Option (List Record)) → List FsEv × Option DecodeError
  | [] => ([], none)
  | none :: _ => ([], some ⟨fname, i⟩)
  | some recs :: rest =>
    let r := emitChunksAux a fname (i + 1) rest
    (FsEv.writeChunk a (chunkPayload recs) :: r.1, r.2)

/-- Process one file of the current subject (one iteration of `for f in files`). -/
def fileEvents (a : String) (n : Nat) (f : RawFile) : List FsEv × Option DecodeError :=
  emitChunksAux a f.name 0 (dispatchChunks n f)

/-- Process the subject's files in list order; a decode error aborts the loop, the
remaining files are not read. -/
def filesEvents (a : String) (n : Nat) : List RawFile → List FsEv × Option DecodeError
  | [] => ([], none)
  | f :: fs =>
    match fileEvents a n f with
    | (evs, some e) => (evs, some e)
    | (evs, none) =>
      let r := filesEvents a n fs
      (evs ++ r.1, r.2)

/-- The artifact name a subject directory produces:
`f"{os.path.basename(root)}.json.gz"`. -/
def artifactName (dirName : String) : String :=
  dirName ++ ".json.gz"

/-- Process one leaf subject directory: open its artifact in append mode, stream
every file's chunks through the one open stream, and close it on every exit path
(the `with` block closes the gzip stream also when a reader raises, so the trailer
is written and the flushed chunks stay on disk). -/
def subjectEvents (n : Nat) (dirName : String) (files : List RawFile) :
    List FsEv × Option DecodeError :=
  let a := artifactName dirName
  let r := filesEvents a n files
  (FsEv.openArtifact a :: r.1 ++ [FsEv.closeArtifact a], r.2)

/-- One `os.walk` entry: the directory's basename, whether it still has
subdirectories, and its files. -/
abbrev WalkEntry := String × Bool × List RawFile

mutual
/-- `os.walk` in top-down order: the directory itself first, then its
subdirectories recursively, in listing order. -/
def walkTree : DirTree → List WalkEntry
  | .mk nm subs files => (nm, !subs.isEmpty, files) :: walkForest subs

/-- `os.walk` over a list of sibling directories. -/
def walkForest : List DirTree → List WalkEntry
  | [] => []
  | t :: ts => walkTree t ++ walkForest ts
end

/-- The conversion loop over the walk entries: a directory that still has
subdirectories is skipped (`if dirs: continue`); a leaf directory is processed as a
subject; the first decode error propagates out of the loop and aborts the run. -/
def runEntries (n : Nat) : List WalkEntry → List FsEv × Option DecodeError
  | [] => ([], none)
  | (nm, hasSubs, files) :: rest =>
    if hasSubs then runEntries n rest
    else
      match subjectEvents n nm files with
      | (evs, some e) => (evs, some e)
      | (evs, none) =>
        let r := runEntries n rest
        (evs ++ r.1, r.2)

/-- The full event trace and final error of one run of the conversion cell over the
source tree, with chunk size `n`. -/
def convertTrace (n : Nat) (t : DirTree) : List FsEv × Option DecodeError :=
  runEntries n (walkTree t)

/-- The output directory: artifact names paired with the decompressed byte content
of each artifact, in creation order. -/
abbrev FS := List (String × String)

/-- Append bytes to an artifact, creating it at the end of the directory when it
does not exist yet (the effect of writing through a stream opened with mode
`"ab"`). -/
def fsAppend (fs : FS) (a : String) (s : String) : FS :=
  match fs with
  | [] => [(a, s)]
  | (b, c) :: rest => if b = a then (b, c ++ s) :: rest else (b, c) :: fsAppend rest a s

/-- Content of an artifact of the output directory, `none` when no such file
exists. -/
def fsLookup (fs : FS) (a : String) : Option String :=
  match fs with
  | [] => none
  | (b, c) :: rest => if b = a then some c else fsLookup rest a

/-- Apply one event to the output directory: open in `"ab"` mode creates an empty
file when absent and otherwise changes nothing, a write appends the chunk's bytes,
a close changes no content. -/
def applyEv (fs : FS) : FsEv → FS
  | .openArtifact a => fsAppend fs a ""
  | .writeChunk a p => fsAppend fs a p
  | .closeArtifact _ => fs

/-- Replay an event trace over an output directory. -/
def replay (fs : FS) (evs : List FsEv) : FS :=
  evs.foldl applyEv fs

/-- The destructive reset at the start of every run: `shutil.rmtree` of the output
directory followed by `os.makedirs` leaves it empty whatever it held before. -/
def resetOutputDir (_ : FS) : FS := []

/-- One full run of the conversion cell: reset the output directory that was left
over from before (`prior`), then replay the run's events over the fresh directory.
Returns the final output directory and the run's error, if any. -/
def convertRun (n : Nat) (t : DirTree) (prior : FS) : FS × Option DecodeError :=
  ((convertTrace n t).1.foldl applyEv (resetOutputDir prior), (convertTrace n t).2)

/-- The output directory a run leaves behind (started from an empty one). -/
def convertFS (n : Nat) (t : DirTree) : FS :=
  (convertRun n t []).1

/-- Parse the remainder of a JSON string literal (the opening quote already
consumed), undoing the serializer's escapes; returns the string and the unread
rest. -/
def parseStringAux : List Char → Option (String × List Char)
  | [] => none
  | '"' :: rest => some ("", rest)
  | '\\' :: c :: rest =>
    (parseStringAux rest).map (fun p =>
      ((if c = 'n' then "\n" else String.singleton c) ++ p.1, p.2))
  | c :: rest => (parseStringAux rest).map (fun p => (String.singleton c ++ p.1, p.2))

/-- Take the maximal run of decimal digits. -/
def takeDigits : List Char → List Char × List Char
  | [] => ([], [])
  | c :: rest =>
    if c.isDigit then
      let r := takeDigits rest
      (c :: r.1, r.2)
    else ([], c :: rest)

/-- Numeric value of a digit run. -/
def digitsToNat (ds : List Char) : Nat :=
  ds.foldl (fun a c => a * 10 + (c.toNat - 48)) 0

/-- Parse a JSON integer (optional minus sign, at least one digit). -/
def parseInt : List Char → Option (Int × List Char)
  | '-' :: rest =>
    let r := takeDigits rest
    if r.1.isEmpty then none else some (-(digitsToNat r.1 : Int), r.2)
  | cs =>
    let r := takeDigits cs
    if r.1.isEmpty then none else some ((digitsToNat r.1 : Int), r.2)

/-- Parse one scalar JSON value. -/
def parseVal : List Char → Option (JsonVal × List Char)
  | '"' :: rest => (parseStringAux rest).map (fun p => (JsonVal.str p.1, p.2))
  | 'n' :: 'u' :: 'l' :: 'l' :: rest => some (JsonVal.null, rest)
  | 't' :: 'r' :: 'u' :: 'e' :: rest => some (JsonVal.bool true, rest)
  | 'f' :: 'a' :: 'l' :: 's' :: 'e' :: rest => some (JsonVal.bool false, rest)
  | cs => (parseInt cs).map (fun p => (JsonVal.num p.1, p.2))

/-- Parse a nonempty `"key":value` pair list followed by the closing brace; `fuel`
bounds the number of pairs. -/
def parsePairs (fuel : Nat) (cs : List Char) : Option (Record × List Char) :=
  match fuel with
  | 0 => none
  | fuel + 1 =>
    match cs with
    | '"' :: rest =>
      match parseStringAux rest with
      | some (k, ':' :: r2) =>
        match parseVal r2 with
        | some (v, ',' :: r4) =>
          match parsePairs fuel r4 with
          | some (ps, r5) => some ((k, v) :: ps, r5)
          | none => none
        | some (v, '\x7d' :: r4) => some ([(k, v)], r4)
        | _ => none
      | _ => none
    | _ => none

/-- Parse one artifact line as a flat JSON object; the whole line must be consumed.
This is the per-line decoding a reader of the artifact performs (the notebook's own
check cell reads every artifact back with `pd.read_json(lines=True)`). -/
def parseRecordLine (s : String) : Option Record :=
  match s.toList with
  | '\x7b' :: '\x7d' :: rest => if rest.isEmpty then some [] else none
  | '\x7b' :: rest =>
    match parsePairs (rest.length + 1) rest with
    | some (r, []) => some r
    | _ => none
  | _ => none

/-- Split a character list at every newline, keeping empty pieces. -/
def splitLinesChars : List Char → List (List Char)
  | [] => [[]]
  | c :: cs =>
    match splitLinesChars cs with
    | [] => [[]]
    | l :: ls => if c = '\n' then [] :: l :: ls else (c :: l) :: ls

/-- The physical lines of a text (the pieces between newlines). -/
def splitLines (s : String) : List String :=
  (splitLinesChars s.toList).map (fun l => String.mk l)

/-- Decode an artifact's decompressed bytes back into its record sequence the way
`pd.read_json(lines=True)` does: split on newlines, drop empty lines, parse every
line as one JSON object; any unparsable line fails the whole read. -/
def decodeArtifact (s : String) : Option (List Record) :=
  ((splitLines s).filter (fun l => l ≠ "")).mapM parseRecordLine

/-- The decoded chunks of one file on an error-free run, described directly: the
dispatched chunk stream with every chunk's records. -/
def fileChunkRecords (n : Nat) (f : RawFile) : List (List Record) :=
  (dispatchChunks n f).filterMap id

/-- The bytes one file contributes to its subject's artifact on an error-free run:
its chunk payloads, concatenated in chunk order. -/
def filePayload (n : Nat) (f : RawFile) : String :=
  String.join ((fileChunkRecords n f).map chunkPayload)

/-- The bytes one subject contributes to its artifact on an error-free run: its
files' payloads in file-list order. -/
def subjectPayload (n : Nat) (files : List RawFile) : String :=
  String.join (files.map (filePayload n))

/-- The leaf directories among a walk-entry list, in traversal order. -/
def leafEntries (es : List WalkEntry) : List (String × List RawFile) :=
  es.filterMap (fun e => if e.2.1 then none else some (e.1, e.2.2))

/-- The leaf directories of the source tree - the subjects - in traversal order. -/
def dirLeaves (t : DirTree) : List (String × List RawFile) :=
  leafEntries (walkTree t)

/-- The chunk payloads one subject's files produce on an error-free run, in
file-list then chunk order. -/
def subjectChunkPayloads (n : Nat) (files : List RawFile) : List String :=
  (files.map (fun f => (fileChunkRecords n f).map chunkPayload)).flatten

/-- The event block of one subject, described directly: one open of its artifact,
one write per decoded chunk of each of its files in order, one close. -/
def subjectBlock (n : Nat) (l : String × List RawFile) : List FsEv :=
  FsEv.openArtifact (artifactName l.1) ::
    (subjectChunkPayloads n l.2).map (FsEv.writeChunk (artifactName l.1))
    ++ [FsEv.closeArtifact (artifactName l.1)]

/-- A trace is well scoped when it is a concatenation of blocks, each block one
artifact's open, then writes to that same artifact only, then its close: every
subject's compressed stream is opened once before any of its chunks are written,
all of the subject's chunks go through that one stream, and the stream is closed
once at the end of the subject (never between chunks or files). -/
inductive WellScoped : List FsEv → Prop
  | nil : WellScoped []
  | block (a : String) (ps : List String) (rest : List FsEv) :
      WellScoped rest →
      WellScoped (FsEv.openArtifact a ::
        ps.map (FsEv.writeChunk a) ++ [FsEv.closeArtifact a] ++ rest)

/-- Source tree exercising claim C1: one subject `s` holding one `.json` file of
two well-formed lines. -/
def treeC1 : DirTree :=
  DirTree.mk "raw_data"
    [DirTree.mk "s" []
      [⟨"f.json", FileContent.jsonl
        [JsonLine.obj [("a", JsonVal.num 1)], JsonLine.obj [("a", JsonVal.num 2)]]⟩]] []

/-- Source tree exercising claim C2: one subject `s` holding two one-line `.json`
files. -/
def treeC2 : DirTree :=
  DirTree.mk "raw_data"
    [DirTree.mk "s" []
      [⟨"a.json", FileContent.jsonl [JsonLine.obj [("a", JsonVal.num 1)]]⟩,
       ⟨"b.json", FileContent.jsonl [JsonLine.obj [("b", JsonVal.num 2)]]⟩]] []

/-- Files of claim C3's subject: one `.csv` file of a header row plus 3 data rows
and one `.json` file of 2 lines. -/
def filesC3 : List RawFile :=
  [⟨"f.csv", FileContent.csv ["a"] [[JsonVal.num 1], [JsonVal.num 2], [JsonVal.num 3]]⟩,
   ⟨"g.json", FileContent.jsonl
     [JsonLine.obj [("b", JsonVal.num 10)], JsonLine.obj [("b", JsonVal.num 20)]]⟩]

/-- Source tree exercising claim C3. -/
def treeC3 : DirTree :=
  DirTree.mk "raw_data" [DirTree.mk "s" [] filesC3] []

/-- Source tree exercising claim C5's witness: the subject `subj` sits below the
intermediate directory `grp`, which produces no artifact of its own. -/
def treeW5 : DirTree :=
  DirTree.mk "raw_data"
    [DirTree.mk "grp"
      [DirTree.mk "subj" [] [⟨"z.json", FileContent.jsonl [JsonLine.obj [("k", JsonVal.num 9)]]⟩]]
      []] []

/-- A recognized `.csv` file used by claim C6's witness next to the skipped `.txt`
file. -/
def fileW6 : RawFile := ⟨"d.csv", FileContent.csv ["a"] [[JsonVal.num 5]]⟩

/-- Walk entries preceding the failing subject in claim C7's witness. -/
def preW7 : List WalkEntry :=
  [("p", false, [⟨"p.csv", FileContent.csv ["x"] [[JsonVal.num 7]]⟩])]

/-- Error-free files of the failing subject in claim C7's witness. -/
def goodW7 : List RawFile := [⟨"g.csv", FileContent.csv ["a"] [[JsonVal.num 1]]⟩]

/-- The failing file of claim C7's witness: its second line is malformed, so with
chunk size 1 its chunk 1 raises after chunk 0 was flushed. -/
def badW7 : RawFile :=
  ⟨"bad.json", FileContent.jsonl [JsonLine.obj [("a", JsonVal.num 1)], JsonLine.malformed]⟩

/-- Files after the failing one inside claim C7's witness subject; never read. -/
def restW7 : List RawFile := [⟨"never.json", FileContent.jsonl [JsonLine.malformed]⟩]

/-- Walk entries after the failing subject in claim C7's witness; never
processed. -/
def postW7 : List WalkEntry :=
  [("q", false, [⟨"q.json", FileContent.jsonl [JsonLine.obj [("z", JsonVal.num 0)]]⟩])]

/-- Source tree exercising claim C8's witness: two subjects, one with two files. -/
def treeW8 : DirTree :=
  DirTree.mk "raw_data"
    [DirTree.mk "u" []
      [⟨"u0.json", FileContent.jsonl
        [JsonLine.obj [("a", JsonVal.num 1)], JsonLine.obj [("a", JsonVal.num 2)],
         JsonLine.obj [("a", JsonVal.num 3)]]⟩,
       ⟨"u1.csv", FileContent.csv ["b"] [[JsonVal.num 4]]⟩],
     DirTree.mk "v" [] [⟨"v0.csv", FileContent.csv ["c"] [[JsonVal.str "x"]]⟩]] []

/-- Source tree exercising claim C10's witness: two distinct leaf directories named
`s`, one nested two levels deep, one directly below the root. -/
def treeW10 : DirTree :=
  DirTree.mk "raw_data"
    [DirTree.mk "grp"
      [DirTree.mk "s" [] [⟨"x.json", FileContent.jsonl [JsonLine.obj [("a", JsonVal.num 1)]]⟩]]
      [],
     DirTree.mk "s" [] [⟨"y.csv", FileContent.csv ["b"] [[JsonVal.num 2]]⟩]] []

lemma strJoin_nil : String.join [] = "" := rfl

lemma strJoin_cons (x : String) (l : List String) :
    String.join (x :: l) = x ++ String.join l := by
  rw [String.join_eq, String.join_eq]
  simp only [List.map_cons, List.flatten_cons]
  rfl

lemma strJoin_append (l1 l2 : List String) :
    String.join (l1 ++ l2) = String.join l1 ++ String.join l2 := by
  induction l1 with
  | nil => simp [String.join]
  | cons x l ih => simp only [List.cons_append, strJoin_cons, ih, String.append_assoc]

lemma strJoin_flatten (xss : List (List String)) :
    String.join xss.flatten = String.join (xss.map String.join) := by
  induction xss with
  | nil => rfl
  | cons xs xss ih => simp only [List.flatten_cons, strJoin_append, List.map_cons, strJoin_cons, ih]

lemma subjectPayload_eq_join (n : Nat) (files : List RawFile) :
    String.join (subjectChunkPayloads n files) = subjectPayload n files := by
  rw [subjectChunkPayloads, strJoin_flatten, List.map_map, subjectPayload]
  rfl

lemma fsLookup_fsAppend (fs : FS) (a s b : String) :
    fsLookup (fsAppend fs a s) b =
      if a = b then some ((fsLookup fs b).getD "" ++ s) else fsLookup fs b := by
  induction fs with
  | nil =>
    by_cases hab : a = b <;> simp [fsAppend, fsLookup, hab]
  | cons hd tl ih =>
    obtain ⟨c, d⟩ := hd
    by_cases hca : c = a
    · subst hca
      by_cases hcb : c = b <;> simp [fsAppend, fsLookup, hcb]
    · by_cases hcb : c = b
      · subst hcb
        have hab : ¬ (a = c) := fun h => hca h.symm
        simp [fsAppend, fsLookup, hca, hab]
      · simp [fsAppend, fsLookup, hca, hcb, ih]

lemma replay_append (fs : FS) (e1 e2 : List FsEv) :
    replay fs (e1 ++ e2) = replay (replay fs e1) e2 :=
  List.foldl_append ..

lemma replay_writes_lookup (a : String) (ps : List String) (fs : FS) (b : String)
    (hsome : fsLookup fs a ≠ none) :
    fsLookup (replay fs (ps.map (FsEv.writeChunk a))) b =
      if a = b then some ((fsLookup fs b).getD "" ++ String.join ps) else fsLookup fs b := by
  induction ps generalizing fs with
  | nil =>
    by_cases hab : a = b
    · subst hab
      obtain ⟨c, hc⟩ := Option.ne_none_iff_exists'.mp hsome
      simp [replay, String.join, hc]
    · simp [replay, hab]
  | cons p ps ih =>
    have h1 : fsLookup (fsAppend fs a p) a ≠ none := by
      rw [fsLookup_fsAppend]; simp
    have step : replay fs ((p :: ps).map (FsEv.writeChunk a)) =
        replay (fsAppend fs a p) (ps.map (FsEv.writeChunk a)) := rfl
    rw [step, ih (fsAppend fs a p) h1, fsLookup_fsAppend]
    by_cases hab : a = b
    · subst hab
      simp [strJoin_cons, String.append_assoc]
    · simp [hab]

lemma replay_block_lookup (a : String) (ps : List String) (fs : FS) (b : String) :
    fsLookup (replay fs (FsEv.openArtifact a :: ps.map (FsEv.writeChunk a)
        ++ [FsEv.closeArtifact a])) b =
      if a = b then some ((fsLookup fs b).getD "" ++ String.join ps) else fsLookup fs b := by
  have h0 : replay fs (FsEv.openArtifact a :: ps.map (FsEv.writeChunk a)
      ++ [FsEv.closeArtifact a]) =
      replay (replay (fsAppend fs a "") (ps.map (FsEv.writeChunk a))) [FsEv.closeArtifact a] := by
    rw [show FsEv.openArtifact a :: ps.map (FsEv.writeChunk a) ++ [FsEv.closeArtifact a] =
      (FsEv.openArtifact a :: ps.map (FsEv.writeChunk a)) ++ [FsEv.closeArtifact a] from rfl,
      replay_append]
    rfl
  have h1 : fsLookup (fsAppend fs a "") a ≠ none := by
    rw [fsLookup_fsAppend]; simp
  rw [h0, show replay (replay (fsAppend fs a "") (ps.map (FsEv.writeChunk a)))
      [FsEv.closeArtifact a] = replay (fsAppend fs a "") (ps.map (FsEv.writeChunk a)) from rfl,
    replay_writes_lookup a ps _ b h1, fsLookup_fsAppend]
  by_cases hab : a = b <;> simp [hab]

lemma emitChunksAux_none (a fname : String) :
    ∀ (chunks : List (Option (List Record))) (i : Nat),
      (emitChunksAux a fname i chunks).2 = none →
      (emitChunksAux a fname i chunks).1 =
        ((chunks.filterMap id).map chunkPayload).map (FsEv.writeChunk a)
  | [], _, _ => rfl
  | none :: rest, i, h => by simp [emitChunksAux] at h
  | some recs :: rest, i, h => by
    have h2 : (emitChunksAux a fname (i + 1) rest).2 = none := by
      simpa [emitChunksAux] using h
    simp only [emitChunksAux, List.filterMap_cons, id, List.map_cons]
    exact congrArg (FsEv.writeChunk a (chunkPayload recs) :: ·)
      (emitChunksAux_none a fname rest (i + 1) h2)

lemma emitChunksAux_writes (a fname : String) :
    ∀ (chunks : List (Option (List Record))) (i : Nat),
      ∃ ps : List String, (emitChunksAux a fname i chunks).1 = ps.map (FsEv.writeChunk a)
  | [], _ => ⟨[], rfl⟩
  | none :: rest, i => ⟨[], rfl⟩
  | some recs :: rest, i => by
    obtain ⟨ps, hps⟩ := emitChunksAux_writes a fname rest (i + 1)
    exact ⟨chunkPayload recs :: ps, by simp [emitChunksAux, hps]⟩

lemma emitChunksAux_error (a fname : String) :
    ∀ (chunks : List (Option (List Record))) (i : Nat) (e : DecodeError),
      (emitChunksAux a fname i chunks).2 = some e →
      e.file = fname ∧ e.chunk = i + (emitChunksAux a fname i chunks).1.length
  | [], i, e, h => by simp [emitChunksAux] at h
  | none :: rest, i, e, h => by
    have : e = ⟨fname, i⟩ := by simpa [emitChunksAux] using h.symm
    subst this
    simp [emitChunksAux]
  | some recs :: rest, i, e, h => by
    have h2 : (emitChunksAux a fname (i + 1) rest).2 = some e := by
      simpa [emitChunksAux] using h
    obtain ⟨h3, h4⟩ := emitChunksAux_error a fname rest (i + 1) e h2
    refine ⟨h3, ?_⟩
    simp only [emitChunksAux, List.length_cons]
    omega

lemma fileEvents_none (a : String) (n : Nat) (f : RawFile)
    (h : (fileEvents a n f).2 = none) :
    (fileEvents a n f).1 = ((fileChunkRecords n f).map chunkPayload).map (FsEv.writeChunk a) :=
  emitChunksAux_none a f.name (dispatchChunks n f) 0 h

lemma filesEvents_none (a : String) (n : Nat) :
    ∀ files, (filesEvents a n files).2 = none →
      (filesEvents a n files).1 = (subjectChunkPayloads n files).map (FsEv.writeChunk a)
  | [], _ => rfl
  | f :: fs, h => by
    rcases hfe : fileEvents a n f with ⟨evs, err⟩
    cases err with
    | some e => simp [filesEvents, hfe] at h
    | none =>
      have h2 : (filesEvents a n fs).2 = none := by simpa [filesEvents, hfe] using h
      have hev : evs = ((fileChunkRecords n f).map chunkPayload).map (FsEv.writeChunk a) := by
        have := fileEvents_none a n f (by rw [hfe])
        rwa [hfe] at this
      simp only [filesEvents, hfe, filesEvents_none a n fs h2, hev,
        subjectChunkPayloads, List.map_cons, List.flatten_cons, List.map_append]

lemma filesEvents_writes (a : String) (n : Nat) :
    ∀ files, ∃ ps : List String, (filesEvents a n files).1 = ps.map (FsEv.writeChunk a)
  | [] => ⟨[], rfl⟩
  | f :: fs => by
    obtain ⟨ps1, hps1⟩ := emitChunksAux_writes a f.name (dispatchChunks n f) 0
    obtain ⟨ps2, hps2⟩ := filesEvents_writes a n fs
    rcases hfe : fileEvents a n f with ⟨evs, err⟩
    have hev : evs = ps1.map (FsEv.writeChunk a) := by
      have : (fileEvents a n f).1 = ps1.map (FsEv.writeChunk a) := hps1
      rwa [hfe] at this
    cases err with
    | some e => exact ⟨ps1, by simp [filesEvents, hfe, hev]⟩
    | none => exact ⟨ps1 ++ ps2, by simp [filesEvents, hfe, hev, hps2]⟩

lemma filesEvents_append (a : String) (n : Nat) :
    ∀ fs1 fs2, (filesEvents a n fs1).2 = none →
      filesEvents a n (fs1 ++ fs2) =
        ((filesEvents a n fs1).1 ++ (filesEvents a n fs2).1, (filesEvents a n fs2).2)
  | [], fs2, _ => by simp [filesEvents]
  | f :: fs, fs2, h => by
    rcases hfe : fileEvents a n f with ⟨evs, err⟩
    cases err with
    | some e => simp [filesEvents, hfe] at h
    | none =>
      have h2 : (filesEvents a n fs).2 = none := by simpa [filesEvents, hfe] using h
      simp [filesEvents, hfe, filesEvents_append a n fs fs2 h2]

lemma subjectEvents_none (n : Nat) (nm : String) (files : List RawFile)
    (h : (subjectEvents n nm files).2 = none) :
    (subjectEvents n nm files).1 = subjectBlock n (nm, files) := by
  have h2 : (filesEvents (artifactName nm) n files).2 = none := h
  simp only [subjectEvents, subjectBlock, filesEvents_none (artifactName nm) n files h2]

lemma runEntries_none (n : Nat) :
    ∀ es, (runEntries n es).2 = none →
      (runEntries n es).1 = ((leafEntries es).map (subjectBlock n)).flatten
  | [], _ => rfl
  | (nm, hasSubs, files) :: rest, h => by
    cases hasSubs with
    | true =>
      have h2 : (runEntries n rest).2 = none := by simpa [runEntries] using h
      simpa [runEntries, leafEntries] using runEntries_none n rest h2
    | false =>
      rcases hse : subjectEvents n nm files with ⟨evs, err⟩
      cases err with
      | some e => simp [runEntries, hse] at h
      | none =>
        have h2 : (runEntries n rest).2 = none := by simpa [runEntries, hse] using h
        have hev : evs = subjectBlock n (nm, files) := by
          have := subjectEvents_none n nm files (by rw [hse])
          rwa [hse] at this
        simp only [runEntries, Bool.false_eq_true, if_false, hse, runEntries_none n rest h2,
          hev, leafEntries, List.filterMap_cons]
        simp [leafEntries]

lemma runEntries_append (n : Nat) :
    ∀ es1 es2, (runEntries n es1).2 = none →
      runEntries n (es1 ++ es2) =
        ((runEntries n es1).1 ++ (runEntries n es2).1, (runEntries n es2).2)
  | [], es2, _ => by simp [runEntries]
  | (nm, hasSubs, files) :: rest, es2, h => by
    cases hasSubs with
    | true =>
      have h2 : (runEntries n rest).2 = none := by simpa [runEntries] using h
      simpa [runEntries] using runEntries_append n rest es2 h2
    | false =>
      rcases hse : subjectEvents n nm files with ⟨evs, err⟩
      cases err with
      | some e => simp [runEntries, hse] at h
      | none =>
        have h2 : (runEntries n rest).2 = none := by simpa [runEntries, hse] using h
        simp [runEntries, hse, runEntries_append n rest es2 h2]

lemma runEntries_wellScoped (n : Nat) : ∀ es, WellScoped (runEntries n es).1
  | [] => WellScoped.nil
  | (nm, hasSubs, files) :: rest => by
    cases hasSubs with
    | true => simpa [runEntries] using runEntries_wellScoped n rest
    | false =>
      obtain ⟨ps, hps⟩ := filesEvents_writes (artifactName nm) n files
      rcases hse : subjectEvents n nm files with ⟨evs, err⟩
      have hev : evs = FsEv.openArtifact (artifactName nm) :: ps.map (FsEv.writeChunk
          (artifactName nm)) ++ [FsEv.closeArtifact (artifactName nm)] := by
        have : (subjectEvents n nm files).1 = FsEv.openArtifact (artifactName nm) ::
            (filesEvents (artifactName nm) n files).1 ++ [FsEv.closeArtifact (artifactName nm)] :=
          rfl
        rw [hse] at this
        simpa [hps] using this
      cases err with
      | some e =>
        have : (runEntries n ((nm, false, files) :: rest)).1 = evs := by simp [runEntries, hse]
        rw [this, hev]
        have := WellScoped.block (artifactName nm) ps [] WellScoped.nil
        simpa using this
      | none =>
        have : (runEntries n ((nm, false, files) :: rest)).1 =
            evs ++ (runEntries n rest).1 := by simp [runEntries, hse]
        rw [this, hev]
        have := WellScoped.block (artifactName nm) ps (runEntries n rest).1
          (runEntries_wellScoped n rest)
        simpa using this

lemma replay_blocks_lookup (n : Nat) :
    ∀ (ls : List (String × List RawFile)) (fs : FS) (b : String),
      fsLookup (replay fs ((ls.map (subjectBlock n)).flatten)) b =
        if ls.any (fun l => artifactName l.1 == b)
        then some ((fsLookup fs b).getD "" ++
          String.join ((ls.filter (fun l => artifactName l.1 == b)).map
            (fun l => subjectPayload n l.2)))
        else fsLookup fs b
  | [], fs, b => by simp [replay]
  | l :: ls, fs, b => by
    have hsplit : ((l :: ls).map (subjectBlock n)).flatten =
        subjectBlock n l ++ (ls.map (subjectBlock n)).flatten := by
      simp
    have hblock : ∀ c, fsLookup (replay fs (subjectBlock n l)) c =
        if artifactName l.1 = c
        then some ((fsLookup fs c).getD "" ++ String.join (subjectChunkPayloads n l.2))
        else fsLookup fs c := fun c =>
      replay_block_lookup (artifactName l.1) (subjectChunkPayloads n l.2) fs c
    rw [hsplit, replay_append, replay_blocks_lookup n ls (replay fs (subjectBlock n l)) b,
      hblock b]
    by_cases hab : artifactName l.1 = b
    · cases hany : ls.any (fun l => artifactName l.1 == b) with
      | true =>
        simp [hab, hany, subjectPayload_eq_join, strJoin_cons, String.append_assoc]
      | false =>
        have hfil : ls.filter (fun l => artifactName l.1 == b) = [] := by
          apply List.filter_eq_nil_iff.mpr
          intro x hx hpx
          have hx2 : ls.any (fun l => artifactName l.1 == b) = true :=
            List.any_eq_true.mpr ⟨x, hx, hpx⟩
          rw [hany] at hx2
          exact Bool.false_ne_true hx2
        simp [hab, hany, hfil, subjectPayload_eq_join, strJoin_cons, strJoin_nil,
          String.append_empty]
    · cases hany : ls.any (fun l => artifactName l.1 == b) with
      | true => simp [hab, hany]
      | false => simp [hab, hany]

lemma convertFS_lookup (n : Nat) (t : DirTree) (b : String)
    (h : (convertTrace n t).2 = none) :
    fsLookup (convertFS n t) b =
      if (dirLeaves t).any (fun l => artifactName l.1 == b)
      then some (String.join (((dirLeaves t).filter (fun l => artifactName l.1 == b)).map
        (fun l => subjectPayload n l.2)))
      else none := by
  have htr : (convertTrace n t).1 = ((dirLeaves t).map (subjectBlock n)).flatten :=
    runEntries_none n (walkTree t) h
  have hfs : convertFS n t = replay [] ((dirLeaves t).map (subjectBlock n)).flatten := by
    rw [convertFS, convertRun, resetOutputDir, ← htr]
    rfl
  rw [hfs, replay_blocks_lookup]
  cases hany : (dirLeaves t).any (fun l => artifactName l.1 == b) with
  | true => simp [fsLookup, String.empty_append]
  | false => simp [fsLookup]

lemma filesEvents_skip (a : String) (n : Nat) (g : RawFile)
    (h1 : splitextExt g.name ≠ ".json") (h2 : splitextExt g.name ≠ ".csv")
    (fs1 fs2 : List RawFile) :
    filesEvents a n (fs1 ++ g :: fs2) = filesEvents a n (fs1 ++ fs2) := by
  induction fs1 with
  | nil =>
    have hd : dispatchChunks n g = [] := by
      simp [dispatchChunks, h1, h2]
    simp [filesEvents, fileEvents, hd, emitChunksAux]
  | cons f fs1 ih =>
    rcases hfe : fileEvents a n f with ⟨evs, err⟩
    cases err with
    | some e => simp [filesEvents, hfe]
    | none => simp [filesEvents, hfe, ih]

lemma artifactName_beq (x y : String) :
    (artifactName x == artifactName y) = (x == y) := by
  by_cases h : x = y
  · simp [h]
  · have hne : artifactName x ≠ artifactName y := by
      intro he
      apply h
      have hd : x.data ++ ".json.gz".data = y.data ++ ".json.gz".data := by
        have := congrArg String.data he
        simpa [artifactName] using this
      have h2 := List.append_cancel_right hd
      cases x; cases y
      exact congrArg String.mk h2
    simp [h, hne]

/-- Claim C4: running the conversion twice with identical inputs and identical
chunk size leaves identical output directories (and hence identical decoded record
sequences per artifact), whatever the output directory held before each run,
because `shutil.rmtree` + `os.makedirs` reset it at the start of every run. -/
theorem convertRun_idempotent (n : Nat) (t : DirTree) (prior1 prior2 : FS) :
    convertRun n t prior1 = convertRun n t prior2 := rfl

/-- Claim C5: on an error-free run, an output artifact with a given name exists if
and only if some leaf directory of the source tree (one with no subdirectories)
yields it, and every produced artifact is named `<subjectName>.json.gz`; a
directory that still has subdirectories is skipped and produces no artifact of its
own. -/
theorem artifact_iff_leaf_subject (n : Nat) (t : DirTree) (b : String)
    (h : (convertTrace n t).2 = none) :
    (∃ c, fsLookup (convertFS n t) b = some c) ↔
      ∃ l ∈ dirLeaves t, b = artifactName l.1 := by
  rw [convertFS_lookup n t b h]
  cases hany : (dirLeaves t).any (fun l => artifactName l.1 == b) with
  | true =>
    constructor
    · intro _
      obtain ⟨x, hx, hpx⟩ := List.any_eq_true.mp hany
      exact ⟨x, hx, (eq_of_beq hpx).symm⟩
    · intro _
      simp
  | false =>
    constructor
    · intro ⟨c, hc⟩
      simp at hc
    · intro ⟨l, hl, hb⟩
      have : (dirLeaves t).any (fun l => artifactName l.1 == b) = true :=
        List.any_eq_true.mpr ⟨l, hl, by simp [hb]⟩
      rw [hany] at this
      exact absurd this Bool.false_ne_true

/-- Claim C5, witnessed: in `treeW5` the nested leaf `subj` produces
`subj.json.gz`. -/
theorem artifact_iff_leaf_subject_witness :
    ∃ c, fsLookup (convertFS 1 treeW5) (artifactName "subj") = some c :=
  (artifact_iff_leaf_subject 1 treeW5 (artifactName "subj") rfl).mpr
    ⟨("subj", [⟨"z.json", FileContent.jsonl [JsonLine.obj [("k", JsonVal.num 9)]]⟩]),
      by decide, rfl⟩

/-- Claim C6: a file of the subject whose extension is neither `.csv` nor `.json`
contributes nothing to the subject's processing - no chunk written, no error
raised - and the subject's other files are processed exactly as if it were not
there. -/
theorem unsupported_extension_skip (n : Nat) (nm : String) (g : RawFile)
    (fs1 fs2 : List RawFile) (h1 : splitextExt g.name ≠ ".json")
    (h2 : splitextExt g.name ≠ ".csv") :
    subjectEvents n nm (fs1 ++ g :: fs2) = subjectEvents n nm (fs1 ++ fs2) := by
  simp [subjectEvents, filesEvents_skip (artifactName nm) n g h1 h2 fs1 fs2]

/-- Claim C6, witnessed: a `.txt` file ahead of a `.csv` file changes nothing. -/
theorem unsupported_extension_skip_witness :
    subjectEvents 1 "s" [⟨"notes.txt", FileContent.binary⟩, fileW6] =
      subjectEvents 1 "s" [fileW6] :=
  unsupported_extension_skip 1 "s" ⟨"notes.txt", FileContent.binary⟩ [] [fileW6]
    (by decide) (by decide)

/-- Claim C7: when a recognized file of a subject fails to decode, the whole run
aborts with an error carrying the offending file's name and the failing chunk's
index; the failing chunk writes nothing (no partial-chunk recovery: exactly the
chunks before it were flushed), the remaining files of the subject and the
remaining walk entries are not processed, the subject's stream is still closed, and
every event emitted before the failure stays in the result (flushed output is not
rolled back). -/
theorem decode_error_aborts (n : Nat) (nm : String) (pre post : List WalkEntry)
    (good : List RawFile) (bad : RawFile) (rest : List RawFile) (e : DecodeError)
    (hpre : (runEntries n pre).2 = none)
    (hgood : (filesEvents (artifactName nm) n good).2 = none)
    (hbad : (fileEvents (artifactName nm) n bad).2 = some e) :
    runEntries n (pre ++ (nm, false, good ++ bad :: rest) :: post) =
      ((runEntries n pre).1 ++
        (FsEv.openArtifact (artifactName nm) ::
          ((filesEvents (artifactName nm) n good).1 ++ (fileEvents (artifactName nm) n bad).1)
          ++ [FsEv.closeArtifact (artifactName nm)]),
       some e) ∧
      e.file = bad.name ∧ e.chunk = (fileEvents (artifactName nm) n bad).1.length := by
  refine ⟨?_, ?_, ?_⟩
  · rw [runEntries_append n pre _ hpre]
    have hbadlist : filesEvents (artifactName nm) n (bad :: rest) =
        ((fileEvents (artifactName nm) n bad).1, some e) := by
      rcases hfe : fileEvents (artifactName nm) n bad with ⟨evs, err⟩
      have herr : err = some e := by
        rw [hfe] at hbad
        exact hbad
      subst herr
      simp [filesEvents, hfe]
    have hsub : filesEvents (artifactName nm) n (good ++ bad :: rest) =
        ((filesEvents (artifactName nm) n good).1 ++ (fileEvents (artifactName nm) n bad).1,
         some e) := by
      rw [filesEvents_append (artifactName nm) n good (bad :: rest) hgood, hbadlist]
    have hse : subjectEvents n nm (good ++ bad :: rest) =
        (FsEv.openArtifact (artifactName nm) ::
          ((filesEvents (artifactName nm) n good).1 ++ (fileEvents (artifactName nm) n bad).1)
          ++ [FsEv.closeArtifact (artifactName nm)], some e) := by
      simp [subjectEvents, hsub]
    simp [runEntries, hse]
  · exact (emitChunksAux_error (artifactName nm) bad.name (dispatchChunks n bad) 0 e hbad).1
  · have := (emitChunksAux_error (artifactName nm) bad.name (dispatchChunks n bad) 0 e hbad).2
    simpa [fileEvents] using this

/-- Claim C7, witnessed at chunk size 1: `bad.json`'s chunk 1 is malformed; the
run keeps subject `p`'s events and `s`'s flushed chunks, reports
`⟨bad.json, 1⟩`, and processes nothing after the failure. -/
theorem decode_error_aborts_witness :
    (runEntries 1 (preW7 ++ ("s", false, goodW7 ++ badW7 :: restW7) :: postW7) =
      ((runEntries 1 preW7).1 ++
        (FsEv.openArtifact (artifactName "s") ::
          ((filesEvents (artifactName "s") 1 goodW7).1 ++ (fileEvents (artifactName "s") 1 badW7).1)
          ++ [FsEv.closeArtifact (artifactName "s")]),
       some ⟨"bad.json", 1⟩) ∧
      DecodeError.file ⟨"bad.json", 1⟩ = badW7.name ∧
      DecodeError.chunk ⟨"bad.json", 1⟩ = (fileEvents (artifactName "s") 1 badW7).1.length) :=
  decode_error_aborts 1 "s" preW7 postW7 goodW7 badW7 restW7 ⟨"bad.json", 1⟩ rfl rfl rfl

/-- Claim C8: every run's event trace is a concatenation of per-subject blocks -
each subject's artifact stream is opened exactly once, before any of its chunks are
written, every chunk of every file of the subject goes through that same stream,
and the stream is closed exactly once at the end of the subject, never between
chunks or files (so compression spans the whole artifact); on an error-free run the
blocks are exactly the leaf subjects' blocks in traversal order. -/
theorem single_stream_per_subject (n : Nat) (t : DirTree) :
    WellScoped (convertTrace n t).1 ∧
      ((convertTrace n t).2 = none →
        (convertTrace n t).1 = ((dirLeaves t).map (subjectBlock n)).flatten) :=
  ⟨runEntries_wellScoped n (walkTree t), fun h => runEntries_none n (walkTree t) h⟩

/-- Claim C8, witnessed on `treeW8`. -/
theorem single_stream_per_subject_witness :
    WellScoped (convertTrace 2 treeW8).1 ∧
      (convertTrace 2 treeW8).1 = ((dirLeaves treeW8).map (subjectBlock 2)).flatten :=
  ⟨(single_stream_per_subject 2 treeW8).1, (single_stream_per_subject 2 treeW8).2 rfl⟩

/-- Claim C10: the traversal recurses to every depth, a leaf directory anywhere in
the tree is a subject, and its artifact is named by its basename alone; hence the
artifact `<s>.json.gz` of an error-free run holds the concatenated payloads of ALL
leaf directories whose basename is `s`, in traversal order - distinct leaves
sharing a basename append into one and the same artifact. -/
theorem deep_nesting_basename_collision (n : Nat) (t : DirTree) (s : String)
    (h : (convertTrace n t).2 = none) :
    fsLookup (convertFS n t) (artifactName s) =
      if (dirLeaves t).any (fun l => l.1 == s)
      then some (String.join (((dirLeaves t).filter (fun l => l.1 == s)).map
        (fun l => subjectPayload n l.2)))
      else none := by
  rw [convertFS_lookup n t (artifactName s) h]
  have hp : (fun (l : String × List RawFile) => artifactName l.1 == artifactName s) =
      (fun l => l.1 == s) := funext fun l => artifactName_beq l.1 s
  rw [hp]

/-- Claim C10, witnessed: in `treeW10` the depth-two leaf `s` and the depth-one
leaf `s` write into the single artifact `s.json.gz`, depth-first leaf first. -/
theorem deep_nesting_basename_collision_witness :
    fsLookup (convertFS 3 treeW10) (artifactName "s") =
      some "\x7b\"a\":1\x7d\x7b\"b\":2\x7d" :=
  (deep_nesting_basename_collision 3 treeW10 "s" rfl).trans rfl

/-- Claim C1 evaluated (code bug): chunk size is NOT invariant.  On `treeC1` (one
`.json` file of two lines) chunk size 1 appends the two chunk payloads with no
separating newline, producing one unparsable line, while chunk size 2 keeps both
records on separate lines; the decoded record sequences of the artifact differ
(the first read fails outright), contradicting the notebook's own read-back
check. -/
theorem chunk_size_changes_decoded_output :
    (convertTrace 1 treeC1).2 = none ∧ (convertTrace 2 treeC1).2 = none ∧
    fsLookup (convertFS 1 treeC1) (artifactName "s") =
      some "\x7b\"a\":1\x7d\x7b\"a\":2\x7d" ∧
    fsLookup (convertFS 2 treeC1) (artifactName "s") =
      some "\x7b\"a\":1\x7d\n\x7b\"a\":2\x7d" ∧
    decodeArtifact "\x7b\"a\":1\x7d\x7b\"a\":2\x7d" = none ∧
    decodeArtifact "\x7b\"a\":1\x7d\n\x7b\"a\":2\x7d" =
      some [[("a", JsonVal.num 1)], [("a", JsonVal.num 2)]] :=
  ⟨rfl, rfl, rfl, rfl, rfl, rfl⟩

/-- Claim C2 evaluated (code bug): the artifact is NOT the newline-delimited JSON
serialization of the subject's records.  On `treeC2` the two one-record files of
subject `s` are appended without a separating newline, so the artifact's bytes put
both records on a single line instead of one record per line. -/
theorem output_not_line_delimited :
    (convertTrace 1000 treeC2).2 = none ∧
    fsLookup (convertFS 1000 treeC2) (artifactName "s") =
      some "\x7b\"a\":1\x7d\x7b\"b\":2\x7d" ∧
    ndjsonSerialization [[("a", JsonVal.num 1)], [("b", JsonVal.num 2)]] =
      "\x7b\"a\":1\x7d\n\x7b\"b\":2\x7d\n" ∧
    (fsLookup (convertFS 1000 treeC2) (artifactName "s")).getD "" ≠
      ndjsonSerialization [[("a", JsonVal.num 1)], [("b", JsonVal.num 2)]] ∧
    splitLines ((fsLookup (convertFS 1000 treeC2) (artifactName "s")).getD "") =
      ["\x7b\"a\":1\x7d\x7b\"b\":2\x7d"] := by
  refine ⟨rfl, rfl, rfl, ?_, rfl⟩
  decide

/-- Claim C3 evaluated (code bug): the subject of `treeC3` decodes exactly 5 input
records (3 CSV rows + 2 JSON lines), but its artifact does not contain exactly 5
decoded JSON objects: the missing newline between the files' payloads merges the
third CSV record and the first JSON record into one line, leaving 4 lines of which
one is unparsable, so reading the artifact back fails. -/
theorem five_records_but_not_five_objects :
    (convertTrace 1000 treeC3).2 = none ∧
    ((filesC3.map (fun f => (fileChunkRecords 1000 f).flatten)).flatten).length = 5 ∧
    ((splitLines ((fsLookup (convertFS 1000 treeC3) (artifactName "s")).getD "")).filter
      (fun l => l ≠ "")).length = 4 ∧
    decodeArtifact ((fsLookup (convertFS 1000 treeC3) (artifactName "s")).getD "") = none :=
  ⟨rfl, rfl, rfl, rfl⟩
